import Mathlib

/-!
Verification development for the GetPdfText repository.

The repository batch-processes scanned PDF documents: an OCR extractor
(`pdf_ocr_extractor.py`) searches recognized page text for a marker line or a
regex pattern, a concurrent driver (`run_ocr.py`) fans documents out over a
worker pool, and reconcilers rename (`rename_pdf_by_ocr_result.py`), verify
(`verify_filename_match.py`) or copy (`copy_pdf_by_name.py`) files based on
the extracted identifiers.

This file gives a shallow embedding of the pure decision logic of those
scripts.  External capabilities are abstracted exactly where the code treats
them as black boxes: the regex engine is a parameter `findAll`/`search`
returning the group-0 spans that `re.finditer`/`re.search` would return, the
OCR engine is a parameter supplying the per-page recognized text, and the
filesystem is explicit data (a list of occupied paths, or an association list
from csv path to rows) threaded through the functions.  Python strings are
modelled as `String`, with the primitive operations (`in`, `strip`,
`splitlines`, `lower`, `os.path.splitext`, `os.path.join`, `os.path.basename`)
re-implemented over `String.data` so that every definition evaluates by
`decide`.
-/

namespace GetPdfText

/-- Python `sub in s`: substring containment, via infix of the char lists. -/
def pyIn (sub s : String) : Prop := sub.data <:+: s.data

instance (sub s : String) : Decidable (pyIn sub s) := by
  unfold pyIn; infer_instance

/-- Boolean form of `pyIn`, used where Python evaluates a condition. -/
def pyInB (sub s : String) : Bool := decide (pyIn sub s)

/-- Python `str.lower()` (ASCII case folding, which is all the code relies on
for the `.pdf` suffix test). -/
def pyLower (s : String) : String := ⟨s.data.map Char.toLower⟩

/-- Python `s.endswith(suf)`. -/
def pyEndsWith (s suf : String) : Bool := decide (suf.data <:+ s.data)

/-- The test `file.lower().endswith(".pdf")` used by every directory scan. -/
def isPdfName (file : String) : Bool := pyEndsWith (pyLower file) ".pdf"

/-- Python `str.strip()` on a char list: drop whitespace from both ends. -/
def stripChars (l : List Char) : List Char :=
  ((l.dropWhile Char.isWhitespace).reverse.dropWhile Char.isWhitespace).reverse

/-- Python `str.strip()`. -/
def pyStrip (s : String) : String := ⟨stripChars s.data⟩

/-- Helper for `pySplitLines`: accumulate the current (reversed) line and cut
at `\n`, `\r\n` or `\r`, like Python `str.splitlines()`; a trailing line
terminator does not open an empty final line. -/
def pySplitLinesAux : List Char → List Char → List String
  | [], acc => if acc = [] then [] else [⟨acc.reverse⟩]
  | '\n' :: rest, acc => (⟨acc.reverse⟩ : String) :: pySplitLinesAux rest []
  | '\r' :: '\n' :: rest, acc => (⟨acc.reverse⟩ : String) :: pySplitLinesAux rest []
  | '\r' :: rest, acc => (⟨acc.reverse⟩ : String) :: pySplitLinesAux rest []
  | c :: rest, acc => pySplitLinesAux rest (c :: acc)

/-- Python `str.splitlines()`. -/
def pySplitLines (s : String) : List String := pySplitLinesAux s.data []

/-- Index of the last `.` in a char list, if any. -/
def lastDotIdx (l : List Char) : Option Nat :=
  (l.reverse.findIdx? (fun c => c = '.')).map (fun k => l.length - 1 - k)

/-- Python `os.path.splitext` on a bare file name (no directory separators):
split at the last dot, provided some non-dot character precedes it (so
leading-dot names such as `.bashrc` keep their dot in the root). -/
def pySplitext (s : String) : String × String :=
  match lastDotIdx s.data with
  | none => (s, "")
  | some i =>
    if 0 < i ∧ (s.data.take i).any (fun c => c ≠ '.') then
      (⟨s.data.take i⟩, ⟨s.data.drop i⟩)
    else (s, "")

/-- Python `os.path.join(d, f)` for a relative name `f` and a directory `d`
without a trailing separator. -/
def pjoin (d f : String) : String := d ++ "/" ++ f

/-- Python `os.path.basename` (POSIX separator). -/
def pyBasename (p : String) : String :=
  ⟨(p.data.reverse.takeWhile (fun c => c ≠ '/')).reverse⟩

/-!
## Copy-by-name matcher (`copy_pdf_by_name.find_and_copy_pdfs`)

The filesystem of the destination directory is a list of occupied full paths.
The `while os.path.exists(dst_path)` loop of the source is modelled with an
explicit fuel argument (`suffixLoop`); on a finite filesystem the source loop
always terminates, and a run records in `stuck` whether the fuel artifact was
ever hit, so theorems can assume it was not.
-/

/-- The suffixed candidate `os.path.join(output_dir, f"{base}_{counter}{ext}")`
tried by the collision loop at counter `c`. -/
def suffixName (dir file : String) (c : Nat) : String :=
  pjoin dir ((pySplitext file).1 ++ "_" ++ Nat.repr c ++ (pySplitext file).2)

/-- The `while os.path.exists(dst_path)` loop: try counters `c, c+1, ...`
until a candidate is not occupied, giving up (only in the model) when the
fuel runs out. -/
def suffixLoop (fs : List String) (dir file : String) : Nat → Nat → Option String
  | 0, _ => none
  | fuel + 1, c =>
    if suffixName dir file c ∈ fs then suffixLoop fs dir file fuel (c + 1)
    else some (suffixName dir file c)

/-- The destination path chosen for copying `file` into `dir` given the
occupied paths `fs`: the plain `os.path.join(dir, file)` when free, otherwise
the first free suffixed name with counter starting at 1. -/
def copyDst (fs : List String) (dir file : String) (fuel : Nat) : Option String :=
  if pjoin dir file ∈ fs then suffixLoop fs dir file fuel 1
  else some (pjoin dir file)

/-- State of a `find_and_copy_pdfs` run: occupied destination paths, the
`copied_files` counter, the `unmatched_strings` set, and the fuel-exhaustion
marker `stuck` (a modelling artifact, never set with sufficient fuel). -/
structure CopyState where
  fs : List String
  copied : Nat
  unmatched : Finset String
  stuck : Bool
  deriving DecidableEq

/-- Processing of a single directory-walk entry: skip non-`.pdf` names, find
the first lookup string contained in the file name (the inner
`for match_str in match_strings: ... break` loop), copy to the collision-free
destination and discard the string from the unmatched set. -/
def processFile (ms : List String) (outDir : String) (fuel : Nat)
    (st : CopyState) (file : String) : CopyState :=
  if isPdfName file then
    match ms.find? (fun m => pyInB m file) with
    | none => st
    | some m =>
      match copyDst st.fs outDir file fuel with
      | none => { st with stuck := true }
      | some dst =>
        { fs := dst :: st.fs, copied := st.copied + 1,
          unmatched := st.unmatched.erase m, stuck := st.stuck }
  else st

/-- The whole `find_and_copy_pdfs` run over the flattened directory walk
`files`, starting from the occupied destination paths `fs0` and
`unmatched_strings = set(match_strings)`. -/
def find_and_copy_pdfs (ms : List String) (files : List String)
    (outDir : String) (fuel : Nat) (fs0 : List String) : CopyState :=
  files.foldl (processFile ms outDir fuel) ⟨fs0, 0, ms.toFinset, false⟩

/-- The lookup string selected for a walk entry: the first (in lookup-list
order) string contained in the name of a `.pdf` file, `none` for other
entries.  This is the string the run discards from the unmatched set for
that file. -/
def firstHit (ms : List String) (f : String) : Option String :=
  if isPdfName f then ms.find? (fun m => pyInB m f) else none

/-!
## OCR extractor (`pdf_ocr_extractor.PdfOcrExtractor`)

The rasterizer and the OCR engine are external collaborators; theorems take
the per-page recognized text `pages` directly, as the list that
`_ocr_images(_pdf_to_images(pdf_path))` would produce.  The regex engine of
`re.finditer` is a parameter `findAll` returning the group-0 spans of the
non-overlapping matches on one page.
-/

/-- Helper for `extract_marker_line`: the double loop
`for i, page_text in enumerate(...)` / `for line in page_text.splitlines()`,
recording `(start_page + i, line.strip())` for every line containing the
marker, with `i` carried as the running page number. -/
def extract_marker_line_aux (marker : String) : Nat → List String → List (Nat × String)
  | _, [] => []
  | page, p :: ps =>
    (if p = "" then []
     else ((pySplitLines p).filter (fun l => pyInB marker l)).map
       (fun l => (page, pyStrip l))) ++ extract_marker_line_aux marker (page + 1) ps

/-- `PdfOcrExtractor._extract_marker_line`: marker-mode line search over the
per-page texts, returning `(page_number, trimmed_line)` pairs in page order
and within-page line order. -/
def extract_marker_line (pages : List String) (marker : String) (startPage : Nat) :
    List (Nat × String) :=
  extract_marker_line_aux marker startPage pages

/-- One `matches.add(full_match)` step of regex mode: trim the span and
insert it into the set unless the trimmed result is empty. -/
def regexInsert (acc : Finset String) (m : String) : Finset String :=
  if pyStrip m = "" then acc else insert (pyStrip m) acc

/-- `PdfOcrExtractor.extract_regex_matches`: for each non-empty page text,
insert every trimmed non-empty group-0 span of the pattern (given by the
engine parameter `findAll`) into one cross-page set. -/
def extract_regex_matches (findAll : String → List String) (pages : List String) :
    Finset String :=
  pages.foldl
    (fun acc page => if page = "" then acc else (findAll page).foldl regexInsert acc) ∅

/-- Filesystem of CSV files: an association of csv path to its list of rows. -/
abbrev CsvFs := List (String × List (List String))

/-- Content of the file at `p`, if it exists. -/
def fsGet (fs : CsvFs) (p : String) : Option (List (List String)) :=
  (fs.find? (fun kv => kv.1 == p)).map (fun kv => kv.2)

/-- Replace (or create) the file at `p` with the given rows. -/
def fsSet (fs : CsvFs) (p : String) (rows : List (List String)) : CsvFs :=
  (p, rows) :: fs.eraseP (fun kv => kv.1 == p)

/-- One CSV data row `[pdf_path, page, text]` as written by `csv.writer`. -/
def csvRow (m : String × Nat × String) : List String :=
  [m.1, Nat.repr m.2.1, m.2.2]

/-- Header row of the match tables. -/
def matchesHeader : List String := ["pdf_path", "page", "text"]

/-- `PdfOcrExtractor._append_matches_to_csv`: append the match rows to the
file at `csvPath`, writing the header first when the file does not exist yet.
The body runs under `try/except (OSError, PermissionError, csv.Error)`; a
raised error (modelled by the oracle `err`) is logged and swallowed, leaving
the filesystem unchanged and returning normally either way. -/
def append_matches_to_csv (err : Option String) (fs : CsvFs) (csvPath : String)
    (ms : List (String × Nat × String)) : CsvFs :=
  match err with
  | some _ => fs
  | none =>
    match fsGet fs csvPath with
    | none => fsSet fs csvPath (matchesHeader :: ms.map csvRow)
    | some prev => fsSet fs csvPath (prev ++ ms.map csvRow)

/-- Path of the per-document result table,
`os.path.join(output_directory, f"{base_name}_matches.csv")` with
`base_name = os.path.splitext(os.path.basename(pdf_path))[0]`. -/
def extractorCsvName (outDir pdfPath : String) : String :=
  pjoin outDir ((pySplitext (pyBasename pdfPath)).1 ++ "_matches.csv")

/-- `PdfOcrExtractor.extract_matches_from_pdf`: run the marker search on the
recognized pages, convert to `(pdf_path, page, text)` rows, and persist them
to the per-document table only when there is at least one match.  Returns the
match rows and the resulting filesystem; `err` is the write-failure oracle of
`append_matches_to_csv`. -/
def extract_matches_from_pdf (err : Option String) (outDir marker : String)
    (fs : CsvFs) (pdfPath : String) (pages : List String) :
    List (String × Nat × String) × CsvFs :=
  let csv_matches := (extract_marker_line pages marker 1).map
    (fun pm => (pdfPath, pm.1, pm.2))
  if csv_matches = [] then (csv_matches, fs)
  else (csv_matches, append_matches_to_csv err fs (extractorCsvName outDir pdfPath) csv_matches)

/-!
## Concurrent driver (`run_ocr.py`)

Workers are isolated processes; a task is a pure function of the document.
The extraction a worker performs is abstracted as
`extract : α → Except String (List M)`: `.ok` is a normal return with the
match rows, `.error` an exception escaping `extract_matches_from_pdf`.
Completion order is arbitrary, so theorems quantify over the order of the
result list.
-/

/-- `run_ocr.process_pdf_wrapper`: the task boundary.  Every exception of the
extraction is caught and converted into `(None, str(e))`; a success returns
`(matches, None)`.  Totality of this function is the driver-isolation
guarantee: no outcome of `extract` escapes the wrapper. -/
def process_pdf_wrapper {α M : Type} (extract : α → Except String (List M)) (a : α) :
    Option (List M) × Option String :=
  match extract a with
  | .ok m => (some m, none)
  | .error e => (none, some e)

/-- Mutable state of the completion loop of `run_ocr.main`: the aggregate
`all_matches`, the success counter `count`, and the error ledger (the
`logger.error` records for failed tasks). -/
structure DriverState (M : Type) where
  all_matches : List M
  count : Nat
  error_log : List String
  deriving DecidableEq

/-- One iteration of `for future in as_completed(...)`: an error goes to the
error ledger; otherwise non-empty matches are appended to the aggregate and
the success counter is incremented. -/
def handleResult {M : Type} (st : DriverState M) (r : Option (List M) × Option String) :
    DriverState M :=
  match r.2 with
  | some e => { st with error_log := st.error_log ++ [e] }
  | none =>
    match r.1 with
    | some ms =>
      { st with all_matches := if ms.isEmpty then st.all_matches else st.all_matches ++ ms,
                count := st.count + 1 }
    | none => { st with count := st.count + 1 }

/-- The completion loop of `run_ocr.main` over the per-task results in
completion order. -/
def run_driver {M : Type} (rs : List (Option (List M) × Option String)) : DriverState M :=
  rs.foldl handleResult ⟨[], 0, []⟩

/-- Rows of the aggregate results file written by `run_ocr.main` after the
pool drains: a header if the file did not exist, then the collected
`all_matches` in collection order (no sorting). -/
def aggregate_rows (fileExists : Bool) (all_matches : List (String × Nat × String)) :
    List (List String) :=
  (if fileExists then [] else [matchesHeader]) ++ all_matches.map csvRow

/-!
## Verification reconciler (`verify_filename_match.py`)

The per-document decision of the completion loop of `main` (lines 174-218):
`ms` is the match list returned by regex-mode extraction for the document and
`fnMatch` the result of `re.search(filename_regex, file_name)` (group 0),
abstracted since the regex engine is external.
-/

/-- Outcome of the per-document verification decision.  `mismatched` carries
the second and third columns of the `unmatches.csv` row: the filename match
(or the literal `NO_MATCH_IN_FILENAME` marker) and the OCR match list as
evidence. -/
inductive VerifyOutcome where
  | skipped
  | verified
  | mismatched (filenameMatch : String) (evidence : List String)
  deriving DecidableEq

/-- The per-document decision: no OCR matches at all is skipped without a
ledger row; a filename not matching the pattern is a mismatch recorded with
the `NO_MATCH_IN_FILENAME` marker; a filename identifier found in the OCR
match list is verified (logged only, no row); otherwise a mismatch row with
the filename identifier and the OCR matches is written.  The second component
is the `unmatches.csv` row appended, whose last column the code serializes as
`str(matches)`. -/
def verify_one (fileName : String) (fnMatch : Option String) (ms : List String) :
    VerifyOutcome × Option (String × String × List String) :=
  if ms = [] then (.skipped, none)
  else
    match fnMatch with
    | none =>
      (.mismatched "NO_MATCH_IN_FILENAME" ms, some (fileName, "NO_MATCH_IN_FILENAME", ms))
    | some s =>
      if s ∈ ms then (.verified, none)
      else (.mismatched s ms, some (fileName, s, ms))

/-- Order on CSV rows used by `sort_csv`: Python `data.sort(key=lambda x: x[0])`
compares the first column as a string (modelled on the char lists, which is
the same code-point lexicographic order).  Rows written by this program are
never empty, so the `headD` default is never consulted on real ledgers. -/
def rowLe (a b : List String) : Prop := (a.headD "").data ≤ (b.headD "").data

instance : DecidableRel rowLe := fun a b => by unfold rowLe; infer_instance

instance : IsTrans (List String) rowLe := ⟨fun _ _ _ => le_trans⟩

instance : IsTotal (List String) rowLe := ⟨fun _ _ => le_total _ _⟩

/-- `sort_csv` of `verify_filename_match.main`: when the file has more than
one row, keep the header and rewrite the data rows sorted by the first
column; otherwise leave the file as it is. -/
def sort_csv (rows : List (List String)) : List (List String) :=
  match rows with
  | header :: d :: rest => header :: List.insertionSort rowLe (d :: rest)
  | other => other

/-!
## Rename reconciler (`rename_pdf_by_ocr_result.rename_pdfs`)

The directory scan selects `output_dir.glob("*_ocr_results.csv")`; the
identifier is the `Matched_Text` column of the first data row, reduced by the
first matching pattern of the configured list (each pattern abstracted as a
`String → Option String` returning the group-0 span of `re.search`).
-/

/-- Selection of the result tables: the glob `*_ocr_results.csv` over the
names in the output directory. -/
def glob_ocr_results (files : List String) : List String :=
  files.filter (fun f => pyEndsWith f "_ocr_results.csv")

/-- Python `csv.DictReader` read of the first data row restricted to column
`col`: the header is the first row, and the value is the entry of the second
row at the (first) index of `col` in the header; `none` when the file has no
data row, the column is absent, or the row is too short. -/
def dictReadFirst (rows : List (List String)) (col : String) : Option String :=
  match rows with
  | header :: first :: _ =>
    match header.findIdx? (fun h => h == col) with
    | some i => first[i]?
    | none => none
  | _ => none

/-- The `for pattern in patterns: ... break` loop: the group-0 span of the
first pattern that matches the text, if any. -/
def firstPatternMatch : List (String → Option String) → String → Option String
  | [], _ => none
  | p :: ps, t =>
    match p t with
    | some m => some m
    | none => firstPatternMatch ps t

/-- Identifier extraction of `rename_pdfs` from the rows of one
`*_ocr_results.csv` file: take the `Matched_Text` column of the first data
row, strip it, and reduce it by the first matching candidate pattern. -/
def identifier_from_csv (rows : List (List String))
    (patterns : List (String → Option String)) : Option String :=
  match dictReadFirst rows "Matched_Text" with
  | none => none
  | some v => firstPatternMatch patterns (pyStrip v)

/-- Character class of `re.sub(r'[\\/*?:"<>|]', "_", new_pdf_name)`. -/
def illegalChars : List Char := ['\\', '/', '*', '?', ':', '"', '<', '>', '|']

/-- Sanitization of the extracted identifier: every character of the illegal
class is replaced by an underscore. -/
def sanitize_filename (s : String) : String :=
  ⟨s.data.map (fun c => if c ∈ illegalChars then '_' else c)⟩

/-- Target path of the rename: `pdf_dir / f"{new_pdf_name}.pdf"` with the
sanitized identifier as stem — a sibling of the source (which is
`pdf_dir / f"{old_pdf_name}.pdf"`) with the same `.pdf` extension. -/
def rename_target (pdfDir ident : String) : String :=
  pjoin pdfDir (sanitize_filename ident ++ ".pdf")

/-- Outcome of one rename attempt. -/
inductive RenameOutcome where
  | renamed
  | failed
  deriving DecidableEq

/-- The collision check and rename of `rename_pdfs` (lines 101-113): when the
target exists and resolves to a different file than the source, refuse and
count a failure, leaving the filesystem untouched; otherwise perform
`os.rename`.  `fs` is the list of existing paths and `resolve` the
`Path.resolve` canonicalization (abstract, since it consults the OS). -/
def rename_step (fs : List String) (resolve : String → String) (old new : String) :
    RenameOutcome × List String :=
  if new ∈ fs ∧ resolve new ≠ resolve old then (.failed, fs)
  else (.renamed, new :: fs.erase old)

/-!
## Helper lemmas
-/

/-- Any name returned by the collision loop is free, has a counter at least
the starting one, and every earlier counter was occupied. -/
theorem suffixLoop_spec (fs : List String) (dir file : String) :
    ∀ (fuel c : Nat) (d : String), suffixLoop fs dir file fuel c = some d →
      d ∉ fs ∧ ∃ k, c ≤ k ∧ d = suffixName dir file k ∧
        ∀ i, c ≤ i → i < k → suffixName dir file i ∈ fs := by
  intro fuel
  induction fuel with
  | zero => intro c d h; simp [suffixLoop] at h
  | succ fuel ih =>
    intro c d h
    rw [suffixLoop] at h
    by_cases hc : suffixName dir file c ∈ fs
    · rw [if_pos hc] at h
      obtain ⟨hd, k, hk1, hk2, hk3⟩ := ih (c + 1) d h
      refine ⟨hd, k, le_trans (Nat.le_succ c) hk1, hk2, ?_⟩
      intro i hi1 hi2
      rcases Nat.eq_or_lt_of_le hi1 with rfl | hlt
      · exact hc
      · exact hk3 i hlt hi2
    · rw [if_neg hc] at h
      obtain rfl := Option.some.inj h
      exact ⟨hc, c, le_refl c, rfl, fun i hi1 hi2 => absurd (lt_of_le_of_lt hi1 hi2) (lt_irrefl c)⟩

/-- The marker search finds nothing when no line of any page contains the
marker. -/
theorem extract_marker_line_aux_eq_nil (marker : String) :
    ∀ (pages : List String) (startPage : Nat),
      (∀ p ∈ pages, ∀ l ∈ pySplitLines p, ¬ pyIn marker l) →
      extract_marker_line_aux marker startPage pages = [] := by
  intro pages
  induction pages with
  | nil => intro startPage _; rfl
  | cons p ps ih =>
    intro startPage h
    rw [extract_marker_line_aux]
    rw [ih (startPage + 1) (fun q hq => h q (List.mem_cons_of_mem p hq))]
    by_cases hp : p = ""
    · simp [hp]
    · rw [if_neg hp]
      have : (pySplitLines p).filter (fun l => pyInB marker l) = [] := by
        rw [List.filter_eq_nil_iff]
        intro l hl
        simpa [pyInB] using h p (List.mem_cons_self p ps) l hl
      simp [this]

/-!
## Claim theorems
-/

/-- C1: Collision safety.  For every rename, if a file already exists at the
computed target path and does not resolve to the source file itself, the
rename is refused (outcome `failed`) and the filesystem is left unchanged.
For every copy, any destination actually chosen is not an occupied path: it
is either the plain destination (which was free), or carries a numeric
suffix `_c` with counter `c ≥ 1` before the extension such that every
earlier-counter candidate was occupied — so no rename or copy ever
overwrites an existing file. -/
theorem c1_collision_safety :
    (∀ (fs : List String) (resolve : String → String) (old new : String),
      new ∈ fs → resolve new ≠ resolve old →
      rename_step fs resolve old new = (RenameOutcome.failed, fs))
    ∧ (∀ (fs : List String) (dir file : String) (fuel : Nat) (d : String),
      copyDst fs dir file fuel = some d →
      d ∉ fs ∧ (d = pjoin dir file ∨ ∃ c, 1 ≤ c ∧ d = suffixName dir file c ∧
        ∀ i, 1 ≤ i → i < c → suffixName dir file i ∈ fs)) := by
  constructor
  · intro fs resolve old new h1 h2
    rw [rename_step, if_pos ⟨h1, h2⟩]
  · intro fs dir file fuel d h
    rw [copyDst] at h
    by_cases hmem : pjoin dir file ∈ fs
    · rw [if_pos hmem] at h
      obtain ⟨hd, k, hk1, hk2, hk3⟩ := suffixLoop_spec fs dir file fuel 1 d h
      exact ⟨hd, Or.inr ⟨k, hk1, hk2, hk3⟩⟩
    · rw [if_neg hmem] at h
      obtain rfl := Option.some.inj h
      exact ⟨hmem, Or.inl rfl⟩

/-- Witness for C1: a rename whose target `n.pdf` already exists is refused
with the filesystem untouched, and the copy destination chosen for `a.pdf`
when `o/a.pdf` and `o/a_1.pdf` are occupied (namely `o/a_2.pdf`) is not an
occupied path. -/
theorem c1_collision_safety_witness :
    rename_step ["n.pdf"] id "old.pdf" "n.pdf" = (RenameOutcome.failed, ["n.pdf"])
    ∧ "o/a_2.pdf" ∉ (["o/a.pdf", "o/a_1.pdf"] : List String) :=
  ⟨c1_collision_safety.1 ["n.pdf"] id "old.pdf" "n.pdf" (by decide) (by decide),
   (c1_collision_safety.2 ["o/a.pdf", "o/a_1.pdf"] "o" "a.pdf" 5 "o/a_2.pdf" (by decide)).1⟩

/-- C3: Verification outcomes.  With `ms` the OCR match list and `fnMatch`
the filename's pattern match: an empty `ms` is skipped with no ledger row; a
filename not matching the pattern is mismatched with the
`NO_MATCH_IN_FILENAME` marker and the OCR matches as evidence; a filename
identifier that is a member of the OCR match list is verified (no row);
otherwise the outcome is mismatched with the identifier and the full OCR
match list as evidence. -/
theorem c3_verification_outcomes :
    ∀ (fileName : String) (fnMatch : Option String) (ms : List String),
    (ms = [] → verify_one fileName fnMatch ms = (.skipped, none))
    ∧ (ms ≠ [] → fnMatch = none →
        verify_one fileName fnMatch ms =
          (.mismatched "NO_MATCH_IN_FILENAME" ms, some (fileName, "NO_MATCH_IN_FILENAME", ms)))
    ∧ (∀ s, ms ≠ [] → fnMatch = some s → s ∈ ms →
        verify_one fileName fnMatch ms = (.verified, none))
    ∧ (∀ s, ms ≠ [] → fnMatch = some s → s ∉ ms →
        verify_one fileName fnMatch ms = (.mismatched s ms, some (fileName, s, ms))) := by
  intro fileName fnMatch ms
  refine ⟨fun h => ?_, fun h hn => ?_, fun s h hs hmem => ?_, fun s h hs hmem => ?_⟩
  · unfold verify_one; rw [if_pos h]
  · unfold verify_one; rw [if_neg h, hn]
  · unfold verify_one; rw [if_neg h, hs]; simp only [if_pos hmem]
  · unfold verify_one; rw [if_neg h, hs]; simp only [if_neg hmem]

/-- Witness for C3: the spec scenario.  Filename `CR-0042.pdf` whose
filename match is `CR-0042`: OCR matches `[CR-0042, CR-0099]` verify, while
OCR matches `[CR-0099]` alone give a mismatch with evidence `[CR-0099]`. -/
theorem c3_verification_outcomes_witness :
    verify_one "CR-0042.pdf" (some "CR-0042") ["CR-0042", "CR-0099"] = (.verified, none)
    ∧ verify_one "CR-0042.pdf" (some "CR-0042") ["CR-0099"] =
        (.mismatched "CR-0042" ["CR-0099"], some ("CR-0042.pdf", "CR-0042", ["CR-0099"])) :=
  ⟨(c3_verification_outcomes "CR-0042.pdf" (some "CR-0042") ["CR-0042", "CR-0099"]).2.2.1
     "CR-0042" (by decide) rfl (by decide),
   (c3_verification_outcomes "CR-0042.pdf" (some "CR-0042") ["CR-0099"]).2.2.2
     "CR-0042" (by decide) rfl (by decide)⟩

/-- C8: Identifier sanitization and target path.  Sanitization maps exactly
the characters of the illegal class to an underscore (no illegal character
survives, positions and length are preserved), the rename target is a
sibling in the same directory with extension `.pdf` and the sanitized
identifier as stem, and in particular identifier `ABC/123` yields stem
`ABC_123` and target file `ABC_123.pdf`. -/
theorem c8_sanitized_target :
    ∀ (s dir : String) (i : Nat),
    (∀ c, c ∈ (sanitize_filename s).data → c ∉ illegalChars)
    ∧ (sanitize_filename s).data.length = s.data.length
    ∧ (sanitize_filename s).data[i]? =
        (s.data[i]?).map (fun c => if c ∈ illegalChars then '_' else c)
    ∧ rename_target dir s = pjoin dir (sanitize_filename s ++ ".pdf")
    ∧ sanitize_filename "ABC/123" = "ABC_123"
    ∧ rename_target dir "ABC/123" = pjoin dir "ABC_123.pdf" := by
  intro s dir i
  refine ⟨?_, by simp [sanitize_filename], by simp [sanitize_filename, List.getElem?_map],
    rfl, by decide, rfl⟩
  intro c hc
  simp only [sanitize_filename, List.mem_map] at hc
  obtain ⟨a, _, rfl⟩ := hc
  by_cases ha : a ∈ illegalChars
  · simp only [if_pos ha]; decide
  · simp only [if_neg ha]; exact ha

/-- Witness for C8: the slash of `ABC/123` is replaced, the sanitized stem is
`ABC_123`, and no illegal character remains. -/
theorem c8_sanitized_target_witness :
    sanitize_filename "ABC/123" = "ABC_123"
    ∧ ('/' ∈ (sanitize_filename "ABC/123").data → False) :=
  ⟨(c8_sanitized_target "ABC/123" "pdfs" 0).2.2.2.2.1,
   fun h => (c8_sanitized_target "ABC/123" "pdfs" 0).1 '/' h (by decide)⟩

/-- C9: Frame property of marker mode.  When no line of any recognized page
contains the marker string, the extractor returns an empty match list and the
CSV filesystem — in particular the per-document result table — is unchanged,
whatever the write oracle. -/
theorem c9_no_match_no_write :
    ∀ (err : Option String) (outDir marker : String) (fs : CsvFs)
      (pdfPath : String) (pages : List String),
    (∀ p ∈ pages, ∀ l ∈ pySplitLines p, ¬ pyIn marker l) →
    extract_matches_from_pdf err outDir marker fs pdfPath pages = ([], fs) := by
  intro err outDir marker fs pdfPath pages h
  rw [extract_matches_from_pdf]
  rw [extract_marker_line, extract_marker_line_aux_eq_nil marker pages 1 h]
  simp

/-- Witness for C9: a document whose two recognized lines do not contain the
marker produces no matches and leaves the (empty) CSV filesystem empty. -/
theorem c9_no_match_no_write_witness :
    extract_matches_from_pdf none "out" "mark" [] "d.pdf" ["hello\nworld"] = ([], []) :=
  c9_no_match_no_write none "out" "mark" [] "d.pdf" ["hello\nworld"] (by decide)

/-- C10: Swallowed persistence failure in marker mode.  A failing CSV append
(the `some e` oracle, standing for `OSError`/`PermissionError`/`csv.Error`)
leaves the returned value identical to the successful-persist run: the full
match list is returned either way, the function returns normally with no
error channel, and the only difference is the filesystem, which stays
unchanged on failure — so a caller cannot distinguish a successful persist
from a failed one. -/
theorem c10_swallowed_write_failure :
    ∀ (e outDir marker : String) (fs : CsvFs) (pdfPath : String) (pages : List String),
    (extract_matches_from_pdf (some e) outDir marker fs pdfPath pages).1
      = (extract_matches_from_pdf none outDir marker fs pdfPath pages).1
    ∧ (extract_matches_from_pdf (some e) outDir marker fs pdfPath pages).1
      = (extract_marker_line pages marker 1).map (fun pm => (pdfPath, pm.1, pm.2))
    ∧ (extract_matches_from_pdf (some e) outDir marker fs pdfPath pages).2 = fs := by
  intro e outDir marker fs pdfPath pages
  rw [extract_matches_from_pdf, extract_matches_from_pdf]
  by_cases h : (extract_marker_line pages marker 1).map (fun pm => (pdfPath, pm.1, pm.2)) = []
  · simp [h, append_matches_to_csv]
  · simp [h, append_matches_to_csv]

/-- Membership in the per-page insertion fold of regex mode. -/
theorem mem_foldl_regexInsert (l : List String) :
    ∀ (acc : Finset String) (s : String),
      s ∈ l.foldl regexInsert acc ↔ s ∈ acc ∨ ∃ m ∈ l, pyStrip m = s ∧ s ≠ "" := by
  induction l with
  | nil => intro acc s; simp
  | cons m l ih =>
    intro acc s
    rw [List.foldl_cons, ih]
    have hstep : s ∈ regexInsert acc m ↔ s ∈ acc ∨ (pyStrip m = s ∧ s ≠ "") := by
      unfold regexInsert
      by_cases hm : pyStrip m = ""
      · rw [if_pos hm]
        constructor
        · exact Or.inl
        · rintro (h | ⟨rfl, hne⟩)
          · exact h
          · exact absurd hm hne
      · rw [if_neg hm]
        rw [Finset.mem_insert]
        constructor
        · rintro (rfl | h)
          · exact Or.inr ⟨rfl, hm⟩
          · exact Or.inl h
        · rintro (h | ⟨rfl, _⟩)
          · exact Or.inr h
          · exact Or.inl rfl
    rw [hstep]
    simp only [List.mem_cons]
    constructor
    · rintro ((h | h) | ⟨a, ha, hs⟩)
      · exact Or.inl h
      · exact Or.inr ⟨m, Or.inl rfl, h⟩
      · exact Or.inr ⟨a, Or.inr ha, hs⟩
    · rintro (h | ⟨a, rfl | ha, hs⟩)
      · exact Or.inl (Or.inl h)
      · exact Or.inl (Or.inr hs)
      · exact Or.inr ⟨a, ha, hs⟩

/-- Membership in the page fold of regex mode, with the empty-page skip made
explicit. -/
theorem mem_foldl_pages (findAll : String → List String) (pages : List String) :
    ∀ (acc : Finset String) (s : String),
      s ∈ pages.foldl
        (fun acc page => if page = "" then acc else (findAll page).foldl regexInsert acc) acc
      ↔ s ∈ acc ∨ ∃ p ∈ pages, p ≠ "" ∧ ∃ m ∈ findAll p, pyStrip m = s ∧ s ≠ "" := by
  induction pages with
  | nil => intro acc s; simp
  | cons p ps ih =>
    intro acc s
    rw [List.foldl_cons, ih]
    by_cases hp : p = ""
    · simp only [if_pos hp, hp, List.mem_cons]
      constructor
      · rintro (h | ⟨q, hq, hne, hs⟩)
        · exact Or.inl h
        · exact Or.inr ⟨q, Or.inr hq, hne, hs⟩
      · rintro (h | ⟨q, rfl | hq, hne, hs⟩)
        · exact Or.inl h
        · exact absurd rfl hne
        · exact Or.inr ⟨q, hq, hne, hs⟩
    · rw [if_neg hp, mem_foldl_regexInsert]
      simp only [List.mem_cons]
      constructor
      · rintro ((h | h) | ⟨q, hq, hne, hs⟩)
        · exact Or.inl h
        · exact Or.inr ⟨p, Or.inl rfl, hp, h⟩
        · exact Or.inr ⟨q, Or.inr hq, hne, hs⟩
      · rintro (h | ⟨q, rfl | hq, hne, hs⟩)
        · exact Or.inl (Or.inl h)
        · exact Or.inl (Or.inr hs)
        · exact Or.inr ⟨q, hq, hne, hs⟩

/-- C2: Regex-mode set semantics.  Provided the engine returns only trivial
spans on the empty page text (true of any real regex engine, whose spans are
substrings), the returned set contains exactly the distinct trimmed non-empty
group-0 spans of the pattern over the pages, deduplicated across pages, and
it is invariant under any permutation of the pages — the order in which
matches are found is irrelevant. -/
theorem c2_regex_match_set :
    ∀ (findAll : String → List String) (pages : List String),
    (∀ m ∈ findAll "", pyStrip m = "") →
    (∀ s, s ∈ extract_regex_matches findAll pages ↔
        ∃ p ∈ pages, ∃ m ∈ findAll p, pyStrip m = s ∧ s ≠ "")
    ∧ ∀ pages', pages.Perm pages' →
        extract_regex_matches findAll pages' = extract_regex_matches findAll pages := by
  intro findAll pages h0
  have hchar : ∀ (qs : List String) (s : String),
      s ∈ extract_regex_matches findAll qs ↔
        ∃ p ∈ qs, ∃ m ∈ findAll p, pyStrip m = s ∧ s ≠ "" := by
    intro qs s
    rw [extract_regex_matches, mem_foldl_pages]
    constructor
    · rintro (h | ⟨p, hp, _, m, hm, hs⟩)
      · exact absurd h (Finset.not_mem_empty s)
      · exact ⟨p, hp, m, hm, hs⟩
    · rintro ⟨p, hp, m, hm, hs, hne⟩
      by_cases hpe : p = ""
      · subst hpe
        exact absurd (hs.symm.trans (h0 m hm)) hne
      · exact Or.inr ⟨p, hp, hpe, m, hm, hs, hne⟩
  refine ⟨hchar pages, ?_⟩
  intro pages' hperm
  apply Finset.ext
  intro s
  rw [hchar pages', hchar pages]
  constructor
  · rintro ⟨p, hp, rest⟩
    exact ⟨p, hperm.symm.subset hp, rest⟩
  · rintro ⟨p, hp, rest⟩
    exact ⟨p, hperm.subset hp, rest⟩

/-- Witness for C2: a concrete engine whose spans on page `pg` are
`[" A ", "", "A"]`: the match set over the pages `[pg, ""]` is exactly
`{A}`, and permuting the pages leaves it unchanged. -/
theorem c2_regex_match_set_witness :
    ("A" ∈ extract_regex_matches
        (fun p => if p = "pg" then [" A ", "", "A"] else []) ["pg", ""])
    ∧ extract_regex_matches
        (fun p => if p = "pg" then [" A ", "", "A"] else []) ["", "pg"]
      = extract_regex_matches
        (fun p => if p = "pg" then [" A ", "", "A"] else []) ["pg", ""] :=
  ⟨((c2_regex_match_set (fun p => if p = "pg" then [" A ", "", "A"] else [])
      ["pg", ""] (by decide)).1 "A").mpr
      ⟨"pg", by decide, " A ", by decide, by decide, by decide⟩,
   (c2_regex_match_set (fun p => if p = "pg" then [" A ", "", "A"] else [])
      ["pg", ""] (by decide)).2 ["", "pg"] (by decide)⟩

/-- A successful task passes through the completion handler by appending its
matches and bumping the success counter. -/
theorem handleResult_ok {α M : Type} (extract : α → Except String (List M))
    (mf : α → List M) (d : α) (st : DriverState M) (h : extract d = .ok (mf d)) :
    handleResult st (process_pdf_wrapper extract d) =
      ⟨st.all_matches ++ mf d, st.count + 1, st.error_log⟩ := by
  unfold process_pdf_wrapper
  rw [h]
  unfold handleResult
  simp only
  by_cases he : mf d = []
  · simp [he]
  · simp [List.isEmpty_iff, he]

/-- A failing task passes through the completion handler by appending its
message to the error ledger, touching neither the aggregate nor the
counter. -/
theorem handleResult_err {α M : Type} (extract : α → Except String (List M))
    (bad : α) (e : String) (st : DriverState M) (h : extract bad = .error e) :
    handleResult st (process_pdf_wrapper extract bad) =
      ⟨st.all_matches, st.count, st.error_log ++ [e]⟩ := by
  unfold process_pdf_wrapper
  rw [h]
  rfl

/-- Folding the completion handler over a run of successful tasks appends all
their matches in order and counts every task. -/
theorem foldl_handleResult_ok {α M : Type} (extract : α → Except String (List M))
    (mf : α → List M) :
    ∀ (l : List α) (st : DriverState M),
      (∀ d ∈ l, extract d = .ok (mf d)) →
      (l.map (process_pdf_wrapper extract)).foldl handleResult st =
        ⟨st.all_matches ++ (l.map mf).flatten, st.count + l.length, st.error_log⟩ := by
  intro l
  induction l with
  | nil => intro st _; simp
  | cons d ds ih =>
    intro st h
    rw [List.map_cons, List.foldl_cons,
      handleResult_ok extract mf d st (h d (List.mem_cons_self d ds)),
      ih _ (fun x hx => h x (List.mem_cons_of_mem d hx))]
    simp only [List.map_cons, List.flatten_cons, List.length_cons, DriverState.mk.injEq,
      List.append_assoc, and_true, true_and]
    omega

/-- C4: Driver isolation.  If the documents complete in any order
`docs1 ++ [bad] ++ docs2` where exactly `bad` raises (its exception is caught
at the task boundary by `process_pdf_wrapper` and converted to an error
value — the totality of the wrapper and of the fold is the no-propagation
guarantee), then the driver finishes with the aggregate containing exactly
the matches of the other N−1 documents, the success count N−1, and exactly
one error-ledger entry. -/
theorem c4_driver_isolation {α M : Type} (extract : α → Except String (List M))
    (mf : α → List M) (docs1 docs2 : List α) (bad : α) (e : String)
    (hbad : extract bad = .error e)
    (hok : ∀ d ∈ docs1 ++ docs2, extract d = .ok (mf d)) :
    run_driver ((docs1 ++ bad :: docs2).map (process_pdf_wrapper extract)) =
      ⟨((docs1 ++ docs2).map mf).flatten, (docs1 ++ docs2).length, [e]⟩ := by
  unfold run_driver
  rw [List.map_append, List.foldl_append,
    foldl_handleResult_ok extract mf docs1 _
      (fun d hd => hok d (List.mem_append_left docs2 hd)),
    List.map_cons, List.foldl_cons, handleResult_err extract bad e _ hbad,
    foldl_handleResult_ok extract mf docs2 _
      (fun d hd => hok d (List.mem_append_right docs1 hd))]
  simp only [List.map_append, List.flatten_append, List.length_append, DriverState.mk.injEq]
  exact ⟨by simp, by omega, by simp⟩

/-- Witness for C4: three documents 0, 1, 2 of which only document 1 raises
`boom`: the driver ends with aggregate `[0, 2]`, success count 2 and the
single ledger entry `boom`. -/
theorem c4_driver_isolation_witness :
    run_driver (([0] ++ 1 :: [2]).map (process_pdf_wrapper
      (fun n : Nat => if n = 1 then .error "boom" else .ok [n]))) =
      ⟨[0, 2], 2, ["boom"]⟩ := by
  have hok : ∀ d ∈ ([0] ++ [2] : List Nat),
      (fun n : Nat => if n = 1 then (Except.error "boom" : Except String (List Nat))
        else Except.ok [n]) d = Except.ok [d] := by
    intro d hd
    simp only [List.mem_append, List.mem_singleton] at hd
    rcases hd with rfl | rfl <;> rfl
  simpa using c4_driver_isolation
    (fun n : Nat => if n = 1 then .error "boom" else .ok [n])
    (fun n => [n]) [0] [2] 1 "boom" rfl hok

/-- Once the fuel artifact has been hit, the `stuck` marker stays set for the
rest of the run. -/
theorem copyRun_stuck_mono (ms : List String) (outDir : String) (fuel : Nat) :
    ∀ (files : List String) (st : CopyState), st.stuck = true →
      (files.foldl (processFile ms outDir fuel) st).stuck = true := by
  intro files
  induction files with
  | nil => intro st h; exact h
  | cons f fs ih =>
    intro st h
    rw [List.foldl_cons]
    apply ih
    unfold processFile
    by_cases hpdf : isPdfName f = true
    · simp only [hpdf, if_true]
      rcases hfind : ms.find? (fun m => pyInB m f) with _ | m0
      · exact h
      · rcases hdst : copyDst st.fs outDir f fuel with _ | dst
        · rfl
        · exact h
    · simp only [hpdf, if_false]
      exact h

/-- Characterization of the unmatched set after a fold of `processFile` that
never hit the fuel artifact: exactly the strings of the initial set that are
the `firstHit` of no processed walk entry. -/
theorem copyRun_unmatched (ms : List String) (outDir : String) (fuel : Nat) :
    ∀ (files : List String) (st : CopyState),
      (files.foldl (processFile ms outDir fuel) st).stuck = false →
      (files.foldl (processFile ms outDir fuel) st).unmatched =
        st.unmatched.filter (fun m => ¬ ∃ f ∈ files, firstHit ms f = some m) := by
  intro files
  induction files with
  | nil =>
    intro st _
    simp
  | cons f fs ih =>
    intro st h
    rw [List.foldl_cons] at h ⊢
    by_cases hpdf : isPdfName f = true
    · rcases hfind : ms.find? (fun m => pyInB m f) with _ | m0
      · have hstep : processFile ms outDir fuel st f = st := by
          unfold processFile
          simp only [hpdf, if_true, hfind]
        have hhit : firstHit ms f = none := by
          unfold firstHit
          simp only [hpdf, if_true, hfind]
        rw [hstep] at h ⊢
        rw [ih st h]
        apply Finset.filter_congr
        intro a _
        simp [hhit]
      · rcases hdst : copyDst st.fs outDir f fuel with _ | dst
        · have hstep : processFile ms outDir fuel st f = { st with stuck := true } := by
            unfold processFile
            simp only [hpdf, if_true, hfind, hdst]
          rw [hstep] at h
          rw [copyRun_stuck_mono ms outDir fuel fs { st with stuck := true } rfl] at h
          exact absurd h (by simp)
        · have hstep : processFile ms outDir fuel st f =
              ⟨dst :: st.fs, st.copied + 1, st.unmatched.erase m0, st.stuck⟩ := by
            unfold processFile
            simp only [hpdf, if_true, hfind, hdst]
          have hhit : firstHit ms f = some m0 := by
            unfold firstHit
            simp only [hpdf, if_true, hfind]
          rw [hstep] at h ⊢
          rw [ih _ h]
          apply Finset.ext
          intro a
          simp only [Finset.mem_filter, Finset.mem_erase, List.mem_cons, hhit,
            Option.some.injEq, not_exists, not_and]
          constructor
          · rintro ⟨⟨hne, ha⟩, hall⟩
            refine ⟨ha, ?_⟩
            intro f' hf'
            rcases hf' with rfl | hf'
            · rw [hhit]
              intro hc
              exact hne (Option.some.inj hc).symm
            · exact hall f' hf'
          · rintro ⟨ha, hall⟩
            have hne : a ≠ m0 := by
              intro hc
              exact hall f (Or.inl rfl) (by rw [hhit, hc])
            refine ⟨⟨hne, ha⟩, ?_⟩
            intro f' hf'
            exact hall f' (Or.inr hf')
    · have hstep : processFile ms outDir fuel st f = st := by
        simp [processFile, hpdf]
      have hhit : firstHit ms f = none := by
        simp [firstHit, hpdf]
      rw [hstep] at h ⊢
      rw [ih st h]
      apply Finset.filter_congr
      intro a _
      simp [hhit]

/-- C5 counterexample: with lookup strings `[A, B]` and the single document
`AB.pdf`, whose name contains both strings, the end-of-run unmatched set is
`{B}` although the set of lookup strings that matched zero documents'
filenames is empty — the claimed equality fails because the inner loop stops
at the first matching string. -/
theorem c5_unmatched_counterexample :
    (find_and_copy_pdfs ["A", "B"] ["AB.pdf"] "o" 5 []).unmatched = {"B"}
    ∧ (["A", "B"] : List String).toFinset.filter
        (fun m => ¬ ∃ f ∈ (["AB.pdf"] : List String), pyIn m f) = ∅
    ∧ ({"B"} : Finset String) ≠ ∅ :=
  ⟨by decide, by decide, by decide⟩

/-- C5 amended: provided the run never hit the fuel artifact of the model,
the unmatched set returned at run end is exactly the set of lookup strings
that were never selected as the first matching string (in lookup-list order)
of any processed `.pdf` file. -/
theorem c5_unmatched_first_match (ms files : List String) (outDir : String)
    (fuel : Nat) (fs0 : List String)
    (h : (find_and_copy_pdfs ms files outDir fuel fs0).stuck = false) :
    (find_and_copy_pdfs ms files outDir fuel fs0).unmatched =
      ms.toFinset.filter (fun m => ¬ ∃ f ∈ files, firstHit ms f = some m) := by
  unfold find_and_copy_pdfs at h ⊢
  exact copyRun_unmatched ms outDir fuel files ⟨fs0, 0, ms.toFinset, false⟩ h

/-- Witness for C5 amended: the scenario of the claim.  Lookup strings
`[A, B, C]` and documents `xAy.pdf`, `z.pdf` where only `A` appears in any
filename: the unmatched set is exactly `{B, C}`, matching the
first-hit characterization. -/
theorem c5_unmatched_first_match_witness :
    (find_and_copy_pdfs ["A", "B", "C"] ["xAy.pdf", "z.pdf"] "o" 5 []).unmatched =
      (["A", "B", "C"] : List String).toFinset.filter
        (fun m => ¬ ∃ f ∈ (["xAy.pdf", "z.pdf"] : List String),
          firstHit ["A", "B", "C"] f = some m)
    ∧ (find_and_copy_pdfs ["A", "B", "C"] ["xAy.pdf", "z.pdf"] "o" 5 []).unmatched
        = {"B", "C"} :=
  ⟨c5_unmatched_first_match ["A", "B", "C"] ["xAy.pdf", "z.pdf"] "o" 5 [] (by decide),
   by decide⟩

/-- C6 counterexample: an aggregate results file written by the OCR driver
for the completion order `b.pdf` before `a.pdf` keeps that order — its data
rows are not sorted by document identifier, so the aggregate results file is
not re-sorted before being written. -/
theorem c6_aggregate_counterexample :
    aggregate_rows false [("b.pdf", 1, "x"), ("a.pdf", 1, "y")] =
      [["pdf_path", "page", "text"], ["b.pdf", "1", "x"], ["a.pdf", "1", "y"]]
    ∧ ¬ List.Sorted rowLe [["b.pdf", "1", "x"], ["a.pdf", "1", "y"]]
    ∧ sort_csv (aggregate_rows false [("b.pdf", 1, "x"), ("a.pdf", 1, "y")])
        ≠ aggregate_rows false [("b.pdf", 1, "x"), ("a.pdf", 1, "y")] :=
  ⟨by decide, by decide, by decide⟩

/-- C6 amended: only the verification ledgers are re-sorted.  `sort_csv`
(applied to `unmatches.csv` and `skipped_errors.csv` after the pool drains)
keeps the header and rewrites the data rows as a permutation of themselves
sorted by the first column (the document file name), while the aggregate
results file of the OCR driver is written with its data rows in unordered
collection order, with no sorting pass. -/
theorem c6_sorted_ledgers_unsorted_aggregate :
    ∀ (header d : List String) (rest : List (List String)) (fe : Bool)
      (ams : List (String × Nat × String)),
    sort_csv (header :: d :: rest) = header :: List.insertionSort rowLe (d :: rest)
    ∧ (List.insertionSort rowLe (d :: rest)).Perm (d :: rest)
    ∧ List.Sorted rowLe (List.insertionSort rowLe (d :: rest))
    ∧ aggregate_rows fe ams = (if fe then [] else [matchesHeader]) ++ ams.map csvRow := by
  intro header d rest fe ams
  exact ⟨rfl, List.perm_insertionSort rowLe (d :: rest),
    List.sorted_insertionSort rowLe (d :: rest), rfl⟩

/-- C7 counterexample: the rename tool never reads the table the extractor
writes.  The extractor's per-document table for `doc.pdf` is
`out/doc_matches.csv`, which the glob `*_ocr_results.csv` of the rename tool
does not select (the glob over a directory containing only `doc_matches.csv`
is empty), and a table with header `pdf_path,page,text` has no `Matched_Text`
column, so reading it yields no identifier. -/
theorem c7_identifier_source_counterexample :
    glob_ocr_results ["doc_matches.csv"] = []
    ∧ extractorCsvName "out" "doc.pdf" = "out/doc_matches.csv"
    ∧ pyEndsWith (extractorCsvName "out" "doc.pdf") "_ocr_results.csv" = false
    ∧ dictReadFirst [["pdf_path", "page", "text"], ["a.pdf", "1", "ABC/123"]]
        "Matched_Text" = none :=
  ⟨by decide, by decide, by decide, by decide⟩

/-- C7 amended: the rename tool reads the identifier (rather than
recomputing it) from the per-document tables selected by the glob
`*_ocr_results.csv` — exactly the file names with that suffix — taking the
`Matched_Text` column of the first data row, stripped and then reduced by
the first matching candidate pattern. -/
theorem c7_identifier_source :
    ∀ (files : List String) (f : String) (header first : List String)
      (rest : List (List String)) (i : Nat) (v : String)
      (pats : List (String → Option String)),
    (f ∈ glob_ocr_results files ↔ f ∈ files ∧ pyEndsWith f "_ocr_results.csv" = true)
    ∧ (header.findIdx? (fun h => h == "Matched_Text") = some i → first[i]? = some v →
        identifier_from_csv (header :: first :: rest) pats =
          firstPatternMatch pats (pyStrip v)) := by
  intro files f header first rest i v pats
  constructor
  · unfold glob_ocr_results
    rw [List.mem_filter]
  · intro h1 h2
    simp only [identifier_from_csv, dictReadFirst, h1, h2]

/-- Witness for C7 amended: `doc_ocr_results.csv` is selected by the glob,
and a table whose header carries `Matched_Text` at index 1 yields the first
data row's value of that column as the identifier source. -/
theorem c7_identifier_source_witness :
    ("doc_ocr_results.csv" ∈ glob_ocr_results ["doc_matches.csv", "doc_ocr_results.csv"])
    ∧ identifier_from_csv [["File", "Matched_Text"], ["a.pdf", " ABC/123 "]] [] =
        firstPatternMatch [] (pyStrip " ABC/123 ") :=
  ⟨(c7_identifier_source ["doc_matches.csv", "doc_ocr_results.csv"]
      "doc_ocr_results.csv" [] [] [] 0 "" []).1.mpr ⟨by decide, by decide⟩,
   (c7_identifier_source [] "" ["File", "Matched_Text"] ["a.pdf", " ABC/123 "] [] 1
      " ABC/123 " []).2 (by decide) (by decide)⟩

end GetPdfText
